import Mathlib

/-!
# Verification of the graphtools core (graph + red-black tree over tagged edges)

Shallow embedding of `structures/graph.go` and `structures/red-black-tree.go`.

Modeling conventions, fixed once here:

* Go `*Node` pointers become integer node identities; every pointer dereference
  becomes a lookup of that identity in the graph's node list.  In all reachable
  states a live pointer corresponds to a node present in the graph (RemoveNode
  strips every edge referencing a removed node), so the lookup-based reading
  agrees with the pointer reading there.
* `float64` becomes `ℚ`; `math.Pow(r, h)` becomes `r ^ (h : ℤ)` (zpow).  The
  layout computations only combine these deterministically, so equalities that
  hold in the source's float semantics by recomputation hold here as well.
* Go errors become the inductive `GErr`.  The graph file constructs its error
  values (`NoEdgeError{...}`) while the tree file detects them via
  `errors.As(err, &errCheck)` with pointer targets, matching the repository's
  tests (`err.(*NoEdgeError)`); we model the detection as succeeding on the
  corresponding constructor.  Error *kind* is modeled; wrapped causes are not.
* The `Data` payload of a tree node is always a `ColorData`; the embedding
  stores it directly, so the `DataError` branches for a failed payload type
  assertion are unreachable in the model (they are unreachable on every state
  the tree constructs).
* Go `map[int]int` becomes a total function `Int → Int`; Go reads a missing
  key as `0`, and the single `_, ok := m[k]` check in the source takes the
  same action (`m[k] = 1` vs `m[k]++` from default `0`) either way.
* Recursion through the graph (BST descent, repair climbing, relayout) is not
  structurally decreasing, so those functions take explicit fuel and running
  out of fuel is the error `GErr.fuelOut`; a "successful" call in a claim is
  one returning `Except.ok`.
-/

namespace GraphTools

/-- Relation tags (`Tags` table in red-black-tree.go): minimized strings. -/
def tagRoot : String := "r"

/-- `Tags["parent"]`. -/
def tagParent : String := "p"

/-- `Tags["lchild"]`. -/
def tagLChild : String := "cl"

/-- `Tags["rchild"]`. -/
def tagRChild : String := "cr"

/-- `Colors["black"]`. -/
def colorBlack : String := "#242124"

/-- `Colors["red"]`. -/
def colorRed : String := "#c32148"

/-- `DataNodeTag`: marks a data (non-nil) node. -/
def dataNodeTag : String := "data"

/-- `NilNodeTag`: marks a sentinel (nil) node. -/
def nilNodeTag : String := "nil"

/-- The error kinds of the program (graph layer and tree layer).
`nilDeref` models a Go nil-pointer dereference (a crash, never a success). -/
inductive GErr where
  | noNode (id : Int)
  | noEdge
  | edgeWeight
  | dataErr
  | colorDataErr
  | nilNodeErr
  | rootInsert
  | tagBad
  | nodeTypeTagBad
  | nilDeref
  | fuelOut
  deriving DecidableEq, Repr

/-- `ColorData` (red-black-tree.go): color, node-kind tag and height. -/
structure ColorData where
  color : String
  ctype : String
  height : Int
  deriving DecidableEq, Repr

/-- An `Edge` (edge.go) together with its two `NodeRepr` endpoint descriptors,
flattened: `near*` is `Nodes[0]`, `far*` is `Nodes[1]`.  The `*Node` reference
inside a `NodeRepr` is represented by the identity alone. -/
structure GEdge where
  weight : ℚ
  nearId : Int
  nearTag : String
  farId : Int
  farTag : String
  deriving DecidableEq, Repr

/-- A `Node` (current revision: integer `ID`, 3-D coordinates, `Extra`
payload, ordered outgoing edge list).  The payload is always a `ColorData`
for tree nodes, stored directly. -/
structure GNode where
  id : Int
  x : ℚ
  y : ℚ
  z : ℚ
  extra : ColorData
  edges : List GEdge
  deriving DecidableEq, Repr

/-- The `Graph` (graph.go): node/edge counts, maximum edge weight, owned
node list in insertion order.  Lock/channels are not modeled. -/
structure Graph where
  numNodes : Int
  numEdges : Int
  maxEdgeWeight : ℚ
  nodes : List GNode
  deriving DecidableEq, Repr

/-- `int → float64` conversion on coordinates, as an explicit (kernel-cheap)
rational embedding. -/
def intQ (i : Int) : ℚ := mkRat i 1

/-- `q ^ n` for a natural exponent, written out so that concrete states
evaluate without unfolding the algebraic hierarchy's power operator. -/
def qpowN (q : ℚ) : ℕ → ℚ
  | 0 => 1
  | n + 1 => qpowN q n * q

/-- `math.Pow(q, h)` for the integer exponents the layout code produces
(`zpow`: a negative exponent inverts). -/
def qpow (q : ℚ) : Int → ℚ
  | .ofNat n => qpowN q n
  | .negSucc n => 1 / qpowN q (n + 1)

/-- The strict comparison `w > max` of `setEdgeHelper2`, via the executable
rational order. -/
def qgt (a b : ℚ) : Bool := Rat.blt b a

/-- `NewGraph(maxEdgeWeight)`. -/
def newGraph (maxEdgeWeight : ℚ) : Graph :=
  { numNodes := 0, numEdges := 0, maxEdgeWeight := maxEdgeWeight, nodes := [] }

/-- `Graph.IsEmpty`. -/
def Graph.isEmpty (g : Graph) : Bool :=
  g.numNodes == 0

/-- `Graph.HasNodeWithID`: linear scan. -/
def hasNodeWithID (g : Graph) (id : Int) : Bool :=
  g.nodes.any (fun n => n.id == id)

/-- `Graph.GetNodeByID`: linear scan, `NoNodeError` when absent. -/
def getNodeByID (g : Graph) (id : Int) : Except GErr GNode :=
  match g.nodes.find? (fun n => n.id == id) with
  | some n => .ok n
  | none => .error (.noNode id)

/-- Field update performed by `setNodeHelper` on the node it is given:
`ID`, `Coords` and `Extra` are overwritten, the edge list is untouched. -/
def overwriteNode (n : GNode) (x y z : ℚ) (extra : ColorData) : GNode :=
  { n with x := x, y := y, z := z, extra := extra }

/-- `Graph.setNodeHelper` / `SetNode` / `SetNodeByID` at a call site where the
passed pointer is the graph's node of that identity (every call site of the
tree does this): overwrite coordinates/payload in place if the identity
exists, else append a fresh node and increment the count. -/
def setNode (g : Graph) (id : Int) (x y z : ℚ) (extra : ColorData) : Graph :=
  if hasNodeWithID g id then
    { g with nodes := g.nodes.map (fun n => if n.id == id then overwriteNode n x y z extra else n) }
  else
    { g with
      nodes := g.nodes ++ [{ id := id, x := x, y := y, z := z, extra := extra, edges := [] }],
      numNodes := g.numNodes + 1 }

/-- `Graph.HasRelative`: scan the node's outgoing edges for a far-tag match. -/
def hasRelative (g : Graph) (n : Int) (tag : String) : Bool :=
  match getNodeByID g n with
  | .ok node => node.edges.any (fun e => e.farTag == tag)
  | .error _ => false

/-- `Graph.GetRelative`: first outgoing edge whose far tag matches; the Go
function returns the far `*Node`, modeled by its identity. -/
def getRelative (g : Graph) (n : Int) (tag : String) : Except GErr Int := do
  let node ← getNodeByID g n
  match node.edges.find? (fun e => e.farTag == tag) with
  | some e => .ok e.farId
  | none => .error .noEdge

/-- `Graph.GetEdge`: first outgoing edge of `n1` whose far identity is `n2`. -/
def getEdge (g : Graph) (n1 : Int) (n2 : Int) : Except GErr GEdge := do
  let node ← getNodeByID g n1
  match node.edges.find? (fun e => e.farId == n2) with
  | some e => .ok e
  | none => .error .noEdge

/-- `Graph.GetEdgeTags`: the `(nearTag, farTag)` pair of the `n1 → n2` edge. -/
def getEdgeTags (g : Graph) (n1 : Int) (n2 : Int) : Except GErr (String × String) := do
  let e ← getEdge g n1 n2
  .ok (e.nearTag, e.farTag)

/-- Replace the first edge to `far` (used for the weight-overwrite case of
`setEdgeHelper2`, which mutates the found edge in place). -/
def setEdgeWeightFirst : List GEdge → Int → ℚ → List GEdge
  | [], _, _ => []
  | e :: es, far, w =>
    if e.farId == far then { e with weight := w } :: es
    else e :: setEdgeWeightFirst es far w

/-- `Graph.setEdgeHelper2`: one direction.  Weight-range check, then either
overwrite the existing edge's weight in place (tags are left unchanged by the
source) or append a fresh edge built by `NewEdge`/`AddNodes` and increment the
edge count.  A near node absent from the graph leaves the graph unchanged
(the Go code would mutate a struct not owned by the graph). -/
def setEdgeHelper2 (g : Graph) (n1 n2 : Int) (w : ℚ) (t1 t2 : String) : Except GErr Graph :=
  if qgt w g.maxEdgeWeight then .error .edgeWeight
  else
    match getNodeByID g n1 with
    | .error _ => .ok g
    | .ok node =>
      match node.edges.find? (fun e => e.farId == n2) with
      | some _ => .ok { g with
          nodes := g.nodes.map (fun n =>
            if n.id == n1 then { n with edges := setEdgeWeightFirst n.edges n2 w } else n) }
      | none => .ok { g with
          nodes := g.nodes.map (fun n =>
            if n.id == n1 then
              { n with edges := n.edges ++
                  [{ weight := w, nearId := n1, nearTag := t1, farId := n2, farTag := t2 }] }
            else n),
          numEdges := g.numEdges + 1 }

/-- `Graph.setEdgeHelper` / `SetEdge`: near→far, and far→near with swapped
tags when bidirectional. -/
def setEdgeHelper (g : Graph) (n1 n2 : Int) (w : ℚ) (t1 t2 : String) (bidirectional : Bool) :
    Except GErr Graph := do
  let g' ← setEdgeHelper2 g n1 n2 w t1 t2
  if bidirectional then setEdgeHelper2 g' n2 n1 w t2 t1 else .ok g'

/-- Remove the first edge whose far identity matches (`removeEdgeHelper2`'s
removal loop, which breaks after the first hit). -/
def removeEdgeFirst : List GEdge → Int → List GEdge
  | [], _ => []
  | e :: es, far => if e.farId == far then es else e :: removeEdgeFirst es far

/-- `Graph.removeEdgeHelper2`: looks the edge up; a `NoEdgeError` (edge
absent) is treated as success with no mutation; otherwise the first matching
edge is removed from `n1`'s list.  (`NumEdges` is not decremented by the
source.)  A near node absent from the graph leaves the graph unchanged. -/
def removeEdgeHelper2 (g : Graph) (n1 n2 : Int) : Except GErr Graph :=
  match getNodeByID g n1 with
  | .error _ => .ok g
  | .ok node =>
    match node.edges.find? (fun e => e.farId == n2) with
    | none => .ok g
    | some _ => .ok { g with
        nodes := g.nodes.map (fun n =>
          if n.id == n1 then { n with edges := removeEdgeFirst n.edges n2 } else n) }

/-- `Graph.removeEdgeHelper` / `RemoveEdge`: the near→far direction, then —
independently — the far→near direction when bidirectional. -/
def removeEdgeHelper (g : Graph) (n1 n2 : Int) (bidirectional : Bool) : Except GErr Graph := do
  let g' ← removeEdgeHelper2 g n1 n2
  if bidirectional then removeEdgeHelper2 g' n2 n1 else .ok g'

/-- `RemoveNode` discards the result of its `removeEdgeHelper` calls. -/
def removeEdgeIgnoringErr (g : Graph) (n1 n2 : Int) (bidirectional : Bool) : Graph :=
  match removeEdgeHelper g n1 n2 bidirectional with
  | .ok g' => g'
  | .error _ => g

/-- Remove the first node whose identity matches (the removal loop of
`RemoveNode`; identities are unique in every reachable graph). -/
def removeNodeFirst : List GNode → Int → List GNode
  | [], _ => []
  | n :: ns, id => if n.id == id then ns else n :: removeNodeFirst ns id

/-- `Graph.RemoveNode`: strip, for every node `n2` of the graph, both the
`n2 → n1` and the `n1 → n2` edges; then detach the node itself and decrement
the count.  The payload teardown hook (`ColorData.DeleteData`) is a no-op. -/
def removeNode (g : Graph) (n1 : Int) : Graph :=
  let g1 := (g.nodes.map (fun n => n.id)).foldl
    (fun acc i => removeEdgeIgnoringErr acc i n1 true) g
  if g1.nodes.any (fun n => n.id == n1) then
    { g1 with nodes := removeNodeFirst g1.nodes n1, numNodes := g1.numNodes - 1 }
  else g1

/-! ## The red-black tree layer (red-black-tree.go) -/

/-- `rbIDDistributor`: a monotonically decreasing counter for sentinel (nil)
identities and a bounded random source for data identities.  The random
source `randNumGen` is modeled as the finite stream of its upcoming draws;
`GetID` draws `Intn(1000)`, modeled as the next stream element `% 1000`. -/
structure RBIDDistributor where
  nilNodeCount : Int
  randStream : List ℕ
  deriving DecidableEq, Repr

/-- `NewRBIDDistributor`: counter starts at `-1`; the random generator is
freshly seeded (the seed is the model's `randStream` parameter). -/
def newRBIDDistributor (randStream : List ℕ) : RBIDDistributor :=
  { nilNodeCount := -1, randStream := randStream }

/-- The data-identity branch of `rbIDDistributor.GetID`: draw
`randNumGen.Intn(1000)`, retry while the collision check `invalid` rejects
the draw.  The Go loop is unbounded; the model's stream is finite, and an
exhausted stream (`none`) stands for a run of draws on which the loop would
not yet have terminated. -/
def drawDataId (invalid : Int → Bool) : List ℕ → Int → Option (Int × RBIDDistributor)
  | [], _ => none
  | v :: rest, nilCount =>
    let id : Int := (v % 1000 : ℕ)
    if invalid id then drawDataId invalid rest nilCount
    else some (id, { nilNodeCount := nilCount, randStream := rest })

/-- `rbIDDistributor.GetID`: data identities are drawn from the bounded
random source under the collision check; sentinel identities are the
decreasing counter (no collision check). -/
def getID (d : RBIDDistributor) (nodeTypeTag : String) (invalid : Int → Bool) :
    Option (Int × RBIDDistributor) :=
  if nodeTypeTag == dataNodeTag then
    drawDataId invalid d.randStream d.nilNodeCount
  else
    some (d.nilNodeCount, { d with nilNodeCount := d.nilNodeCount - 1 })

/-- Read of Go's `map[int]int` (`t.nodeHeights[k]`): a missing key is 0. -/
def mapGet (m : List (Int × Int)) (k : Int) : Int :=
  match m.find? (fun p => p.1 == k) with
  | some p => p.2
  | none => 0

/-- Key-presence check of Go's `_, ok := m[k]`. -/
def mapHas (m : List (Int × Int)) (k : Int) : Bool :=
  (m.find? (fun p => p.1 == k)).isSome

/-- Write of Go's `m[k] = v`. -/
def mapSet (m : List (Int × Int)) (k v : Int) : List (Int × Int) :=
  if mapHas m k then m.map (fun p => if p.1 == k then (k, v) else p)
  else m ++ [(k, v)]

/-- `RBTree`: the stateful orchestrator.  `Root` (a possibly nil pointer)
becomes `Option Int`; the `map[int]int` of height occupancies becomes an
association list; lock, channels and context are not modeled. -/
structure RBT where
  root : Option Int
  graph : Graph
  ttype : String
  idDistributor : RBIDDistributor
  height : Int
  nodeHeights : List (Int × Int)
  removePredecessor : Bool
  layerDxRatio : ℚ
  layerDy : ℚ
  deriving DecidableEq, Repr

/-- Tree operations run in `EStateM GErr RBT`: Go mutates the receiver in
place, so an error return leaves all mutations made so far in the state —
exactly `EStateM.Result.error e s`. -/
abbrev M (α : Type) := EStateM GErr RBT α

/-- Lift a pure `Except` read into `M`. -/
def liftE {α : Type} (x : Except GErr α) : M α := fun s =>
  match x with
  | .ok a => .ok a s
  | .error e => .error e s

/-- Run a call whose error result the Go source discards: mutations made
before the error are kept, the error itself is dropped. -/
def ignoreErr {α : Type} (m : M α) : M Unit := fun s =>
  match m s with
  | .ok _ s' => .ok () s'
  | .error _ s' => .ok () s'

/-- Draw an identity from the tree's distributor
(`t.idDistributor.GetID(tag, t.Graph.HasNodeWithID)`).  Exhausting the
model's search fuel is `fuelOut` (the Go loop would not have terminated
within that many draws). -/
def mGetID (nodeTypeTag : String) : M Int := fun s =>
  match getID s.idDistributor nodeTypeTag (fun i => hasNodeWithID s.graph i) with
  | some (id, d') => .ok id { s with idDistributor := d' }
  | none => .error .fuelOut s

/-- Read a node of the underlying graph (a Go pointer dereference). -/
def mGetNode (n : Int) : M GNode := fun s =>
  match getNodeByID s.graph n with
  | .ok node => .ok node s
  | .error e => .error e s

/-- `RBTree.NodeIsNil` on a valid node: the payload is always a `ColorData`,
so the `ok` component is true and the answer is `Type == NilNodeTag`. -/
def nodeIsNil (n : Int) : M Bool := do
  let node ← mGetNode n
  pure (node.extra.ctype == nilNodeTag)

/-- `RBTree.NodeColor` on a valid node. -/
def nodeColor (n : Int) : M String := do
  let node ← mGetNode n
  pure node.extra.color

/-- `RBTree.GetParent`: one `GetRelative` lookup with the parent tag. -/
def mGetParent (n : Int) : M Int := do
  let s ← get
  liftE (getRelative s.graph n tagParent)

/-- `RBTree.GetGrandParent`. -/
def mGetGrandParent (n : Int) : M Int := do
  let p ← mGetParent n
  mGetParent p

/-- `RBTree.GetRChild`. -/
def mGetRChild (n : Int) : M Int := do
  let s ← get
  liftE (getRelative s.graph n tagRChild)

/-- `RBTree.GetLChild`. -/
def mGetLChild (n : Int) : M Int := do
  let s ← get
  liftE (getRelative s.graph n tagLChild)

/-- `RBTree.GetSibling`: refuse on the root (pointer comparison with
`t.Root`, which is identity comparison since each identity has one live
node), then pick the parent's other-side child by the near tag of the
child→parent edge. -/
def mGetSibling (n : Int) : M Int := do
  let s ← get
  if s.root == some n then
    throw .nilNodeErr
  else do
    let p ← mGetParent n
    let e ← liftE (getEdge s.graph n p)
    if e.nearTag == tagRChild then mGetLChild p else mGetRChild p

/-- `RBTree.GetUncle`: the parent's sibling. -/
def mGetUncle (n : Int) : M Int := do
  let p ← mGetParent n
  mGetSibling p

/-- `GetEdgeTags` at the two call sites (`rotateLeft`/`rotateRight`) where
the source discards the error: the tags are Go zero values `""` then. -/
def edgeTagsOrEmpty (g : Graph) (n1 n2 : Int) : String × String :=
  match getEdgeTags g n1 n2 with
  | .ok ts => ts
  | .error _ => ("", "")

/-- The height-shrinking loop of `setHeightRecurse`:
`for nodeHeights[Height] == 0 { if Height == 0 break; Height-- }`.
It terminates after at most `Height + 1` checks whenever `Height ≥ 0`
(which holds in every reachable state); the model runs it on exactly that
much fuel. -/
def shrinkHeightLoop (m : List (Int × Int)) : ℕ → Int → Int
  | 0, h => h
  | k + 1, h => if mapGet m h == 0 then (if h == 0 then h else shrinkHeightLoop m k (h - 1)) else h

/-- `RBTree.setHeightRecurse`: when the node comes from a prior position,
decrement the occupancy bucket of its previous height and shrink the
recorded maximum height while its bucket is empty; write the node's new
coordinates and payload; bump the bucket of the new height (a missing key
reads as 0); raise the recorded maximum if exceeded; then recurse into the
left and then the right child (their heights are the parent's plus one,
coordinates offset by `∓ ratio^height` and `+ layerDy`), treating a missing
child edge as a leaf. -/
def setHeightRecurse : ℕ → Int → ℚ → ℚ → ℚ → ColorData → Int → Bool → M Unit
  | 0, _, _, _, _, _, _, _ => throw .fuelOut
  | fuel + 1, n, x, y, z, data, prevHeight, fromPriorNode => do
    if fromPriorNode then
      modify (fun s =>
        let m := mapSet s.nodeHeights prevHeight (mapGet s.nodeHeights prevHeight - 1)
        let newHeight := shrinkHeightLoop m (s.height.toNat + 1) s.height
        { s with nodeHeights := m, height := newHeight })
    modify (fun s => { s with graph := setNode s.graph n x y z data })
    modify (fun s =>
      { s with nodeHeights :=
          if mapHas s.nodeHeights data.height then
            mapSet s.nodeHeights data.height (mapGet s.nodeHeights data.height + 1)
          else
            mapSet s.nodeHeights data.height 1 })
    modify (fun s => if data.height > s.height then { s with height := data.height } else s)
    -- Recurse into the left child
    let s ← get
    match getRelative s.graph n tagLChild with
    | .ok lc => do
      let lcNode ← mGetNode lc
      let lcData := lcNode.extra
      let lcPrevHeight := lcData.height
      let lcData := { lcData with height := data.height + 1 }
      let nNode ← mGetNode n
      let newX := nNode.x - qpow s.layerDxRatio lcData.height
      let newY := nNode.y + s.layerDy
      setHeightRecurse fuel lc newX newY 0 lcData lcPrevHeight true
    | .error .noEdge => pure ()
    | .error e => throw e
    -- Recurse into the right child
    let s ← get
    match getRelative s.graph n tagRChild with
    | .ok rc => do
      let rcNode ← mGetNode rc
      let rcData := rcNode.extra
      let rcPrevHeight := rcData.height
      let rcData := { rcData with height := data.height + 1 }
      let nNode ← mGetNode n
      let newX := nNode.x + qpow s.layerDxRatio rcData.height
      let newY := nNode.y + s.layerDy
      setHeightRecurse fuel rc newX newY 0 rcData rcPrevHeight true
    | .error .noEdge => pure ()
    | .error e => throw e

/-- `RBTree.setRChild`: optionally remove the current right child from the
graph entirely (a missing child edge is tolerated), compute the child's new
height (`parent + 1`) and coordinates (`x + ratio^height`, `y + layerDy`),
relayout the child's subtree, then install the `parent`/`rchild` tagged
edge pair. -/
def setRChild (fuel : ℕ) (np nrc : Int) (bidirectional removeCurrent fromPriorNode : Bool) :
    M Unit := do
  if removeCurrent then do
    let s ← get
    match getRelative s.graph np tagRChild with
    | .ok rc => modify (fun s => { s with graph := removeNode s.graph rc })
    | .error .noEdge => pure ()
    | .error e => throw e
  let npNode ← mGetNode np
  let nrcNode ← mGetNode nrc
  let prevHeight := nrcNode.extra.height
  let nrcData := { nrcNode.extra with height := npNode.extra.height + 1 }
  let s ← get
  let newX := npNode.x + qpow s.layerDxRatio nrcData.height
  let newY := npNode.y + s.layerDy
  setHeightRecurse fuel nrc newX newY 0 nrcData prevHeight fromPriorNode
  let s ← get
  match setEdgeHelper s.graph np nrc 1 tagParent tagRChild bidirectional with
  | .ok g => set { s with graph := g }
  | .error e => throw e

/-- `RBTree.setLChild`: mirror image of `setRChild` with the left tag and
`x - ratio^height`. -/
def setLChild (fuel : ℕ) (np nlc : Int) (bidirectional removeCurrent fromPriorNode : Bool) :
    M Unit := do
  if removeCurrent then do
    let s ← get
    match getRelative s.graph np tagLChild with
    | .ok lc => modify (fun s => { s with graph := removeNode s.graph lc })
    | .error .noEdge => pure ()
    | .error e => throw e
  let npNode ← mGetNode np
  let nlcNode ← mGetNode nlc
  let prevHeight := nlcNode.extra.height
  let nlcData := { nlcNode.extra with height := npNode.extra.height + 1 }
  let s ← get
  let newX := npNode.x - qpow s.layerDxRatio nlcData.height
  let newY := npNode.y + s.layerDy
  setHeightRecurse fuel nlc newX newY 0 nlcData prevHeight fromPriorNode
  let s ← get
  match setEdgeHelper s.graph np nlc 1 tagParent tagLChild bidirectional with
  | .ok g => set { s with graph := g }
  | .error e => throw e

/-- `RBTree.setColor`: overwrite the color inside the node's payload,
keeping identity and coordinates. -/
def setColor (n : Int) (color : String) : M Unit := do
  let node ← mGetNode n
  let c := { node.extra with color := color }
  modify (fun s => { s with graph := setNode s.graph node.id node.x node.y node.z c })

/-- Remove an edge pair through the graph layer, propagating the (never
occurring) error like the source's `err`-checks do. -/
def mRemoveEdge (n1 n2 : Int) (bidirectional : Bool) : M Unit := do
  let s ← get
  match removeEdgeHelper s.graph n1 n2 bidirectional with
  | .ok g => set { s with graph := g }
  | .error e => throw e

/-- `RBTree.rotateLeft(n)`: pivot is `n`'s right child (must be a data
node), `p` is `n`'s parent; detach the `p–n`, `n–pivot` and
`pivot–pivot.left` edge pairs, re-parent the pivot's left subtree onto `n`,
install `n` as the pivot's left child, re-attach the pivot in `n`'s former
slot under `p` (the slot tag was read before surgery; a failed tag read
leaves it `""` and skips the re-attach), and promote the pivot to tree root
if `n` was the root. -/
def rotateLeft (fuel : ℕ) (n : Int) : M Unit := do
  let nnew ← mGetRChild n
  let p ← mGetParent n
  let s ← get
  let n2pTag := (edgeTagsOrEmpty s.graph n p).1
  let isNil ← nodeIsNil nnew
  if isNil then
    throw .nilNodeErr
  else do
    let nnewLeft ← mGetLChild nnew
    mRemoveEdge p n true
    mRemoveEdge n nnew true
    mRemoveEdge nnew nnewLeft true
    setRChild fuel n nnewLeft true false true
    setLChild fuel nnew n true false true
    if n2pTag == tagLChild then
      setLChild fuel p nnew true false true
    else if n2pTag == tagRChild then
      setRChild fuel p nnew true false true
    else
      pure ()
    let s ← get
    match s.root with
    | none => throw .nilDeref
    | some r => if n == r then modify (fun s => { s with root := some nnew }) else pure ()

/-- `RBTree.rotateRight(n)`: mirror image of `rotateLeft`. -/
def rotateRight (fuel : ℕ) (n : Int) : M Unit := do
  let nnew ← mGetLChild n
  let p ← mGetParent n
  let s ← get
  let n2pTag := (edgeTagsOrEmpty s.graph n p).1
  let isNil ← nodeIsNil nnew
  if isNil then
    throw .nilNodeErr
  else do
    let nnewRight ← mGetRChild nnew
    mRemoveEdge p n true
    mRemoveEdge n nnew true
    mRemoveEdge nnew nnewRight true
    setLChild fuel n nnewRight true false true
    setRChild fuel nnew n true false true
    if n2pTag == tagLChild then
      setLChild fuel p nnew true false true
    else if n2pTag == tagRChild then
      setRChild fuel p nnew true false true
    else
      pure ()
    let s ← get
    match s.root with
    | none => throw .nilDeref
    | some r => if n == r then modify (fun s => { s with root := some nnew }) else pure ()

/-- `RBTree.putNode(parent, tag, nodeTypeTag, color)`.  The root insert
(parent absent, root tag) creates the data root, records height 0 with one
occupant, then materializes the sentinel parent (height −1, attached with
the root as its right child) and the two sentinel children (height 1); an
attach failure is wrapped as a `NilNodeError`.  A non-root insert validates
tag and node-kind, draws an identity of the requested kind, creates the
node at height `parent + 1` and coordinates `(id, id, 0)`, and attaches it
on the requested side (the source discards the attach's error). -/
def putNode (fuel : ℕ) (parent : Option Int) (tag nodeTypeTag color : String) : M Unit := do
  if color != colorRed && color != colorBlack then
    throw .colorDataErr
  else
    match parent with
    | none =>
      if tag == tagRoot then do
        let s ← get
        if s.root.isSome then
          throw .rootInsert
        else do
          let id ← mGetID dataNodeTag
          let data : ColorData := { color := color, ctype := dataNodeTag, height := 0 }
          modify (fun s => { s with graph := setNode s.graph id (intQ id) (intQ id) 0 data })
          modify (fun s => { s with
            root := some id, height := 0,
            nodeHeights := mapSet s.nodeHeights 0 1 })
          -- Sentinel parent of the root, attached with the root as its right child
          let pid ← mGetID nilNodeTag
          let pdata : ColorData := { color := colorBlack, ctype := nilNodeTag, height := -1 }
          modify (fun s => { s with graph := setNode s.graph pid (intQ pid) (intQ pid) 0 pdata })
          (fun s => match setRChild fuel pid id true true false s with
            | .ok _ s' => .ok () s'
            | .error _ s' => .error .nilNodeErr s')
          -- Sentinel right child of the root
          let rcid ← mGetID nilNodeTag
          let rcdata : ColorData := { color := colorBlack, ctype := nilNodeTag, height := 1 }
          modify (fun s => { s with graph := setNode s.graph rcid (intQ rcid) (intQ rcid) 0 rcdata })
          (fun s => match setRChild fuel id rcid true true false s with
            | .ok _ s' => .ok () s'
            | .error _ s' => .error .nilNodeErr s')
          -- Sentinel left child of the root
          let lcid ← mGetID nilNodeTag
          let lcdata : ColorData := { color := colorBlack, ctype := nilNodeTag, height := 1 }
          modify (fun s => { s with graph := setNode s.graph lcid (intQ lcid) (intQ lcid) 0 lcdata })
          (fun s => match setLChild fuel id lcid true true false s with
            | .ok _ s' => .ok () s'
            | .error _ s' => .error .nilNodeErr s')
      else
        throw .nilNodeErr
    | some parent => do
      let parentNode ← mGetNode parent
      let parentData := parentNode.extra
      if tag != tagRChild && tag != tagLChild then
        throw .tagBad
      else if nodeTypeTag != dataNodeTag && nodeTypeTag != nilNodeTag then
        throw .nodeTypeTagBad
      else do
        let id ← mGetID nodeTypeTag
        let height := parentData.height + 1
        let data : ColorData := { color := color, ctype := nodeTypeTag, height := height }
        modify (fun s => { s with graph := setNode s.graph id (intQ id) (intQ id) 0 data })
        if tag == tagRChild then
          ignoreErr (setRChild fuel parent id true true false)
        else if tag == tagLChild then
          ignoreErr (setLChild fuel parent id true true false)
        else
          pure ()

/-- `NewRBTree`: fresh lock/channels/distributor, a graph with maximum edge
weight 1.0, layout ratios 0.55 and 1.0, empty height map; then the root
`putNode` (whose error the source discards — it succeeds, as proved below,
so no partial state is hidden by the model's propagation). -/
def newRBTree (fuel : ℕ) (randStream : List ℕ) : EStateM.Result GErr RBT Unit :=
  let t : RBT :=
    { root := none
      graph := newGraph 1
      ttype := "red-black tree"
      idDistributor := newRBIDDistributor randStream
      height := 0
      nodeHeights := []
      removePredecessor := false
      layerDxRatio := 11 / 20
      layerDy := 1 }
  putNode fuel none tagRoot nilNodeTag colorBlack t

/-- `RBTree.NewNode(nodeTypeTag)`: draw an identity of the requested kind
and upsert a fresh red data-tagged node at height 0 and coordinates
`(id, id, 0)`. -/
def newNodeT (nodeTypeTag : String) : M Int := do
  let id ←
    if nodeTypeTag == dataNodeTag then
      mGetID dataNodeTag
    else
      mGetID nilNodeTag
  let data : ColorData := { color := colorRed, ctype := dataNodeTag, height := 0 }
  modify (fun s => { s with graph := setNode s.graph id (intQ id) (intQ id) 0 data })
  pure id

/-! ### Insertion -/

/-- `RBTree.insertRecurse(root, n)`: BST descent comparing identities
(`Node.Compare` orders by the integer identity); at the first sentinel
child the new node is attached in its place (the sentinel is removed by the
attach's `removeCurrent`).  The recursive call's error and the attach's
error are discarded by the source (the latter is overwritten by the next
assignment before any check).  On unwinding, every level re-colors `n` red
and re-materializes `n`'s two sentinel children. -/
def insertRecurse : ℕ → Option Int → Int → M Unit
  | 0, _, _ => throw .fuelOut
  | fuel + 1, root?, n =>
    match root? with
    | none => throw .dataErr
    | some root => do
      if n < root then do
        let s ← get
        match getRelative s.graph root tagLChild with
        | .error _ => throw .nilDeref
        | .ok child => do
          let childIsNil ← nodeIsNil child
          if !childIsNil then
            ignoreErr (insertRecurse fuel (some child) n)
          else
            ignoreErr (setLChild fuel root n true true false)
      else do
        let s ← get
        match getRelative s.graph root tagRChild with
        | .error _ => throw .nilDeref
        | .ok child => do
          let childIsNil ← nodeIsNil child
          if !childIsNil then
            ignoreErr (insertRecurse fuel (some child) n)
          else
            ignoreErr (setRChild fuel root n true true false)
      setColor n colorRed
      putNode fuel (some n) tagLChild nilNodeTag colorBlack
      ignoreErr (putNode fuel (some n) tagRChild nilNodeTag colorBlack)

/-- `RBTree.insertCase1`: `n` sits at the root; recolor it black. -/
def insertCase1 (n : Int) : M Unit :=
  setColor n colorBlack

/-- `RBTree.insertCase2`: parent black, nothing to repair. -/
def insertCase2 (_n : Int) : M Unit :=
  pure ()

/-- `RBTree.insertCase4Step2`: rotate at the grandparent toward the aligned
side, then recolor the (former) parent black and the grandparent red. -/
def insertCase4Step2 (fuel : ℕ) (n : Int) : M Unit := do
  let p ← mGetParent n
  let gp ← mGetGrandParent n
  let s ← get
  let n2pTag ← liftE (do let ts ← getEdgeTags s.graph n p; pure ts.1)
  let _ ← liftE (getEdgeTags s.graph p gp)
  if n2pTag == tagLChild then
    rotateRight fuel gp
  else
    rotateLeft fuel gp
  setColor p colorBlack
  setColor gp colorRed

/-- `RBTree.insertCase4`: if `n` is the inner child (right-of-left or
left-of-right), rotate at the parent to realign and continue from the node
that moved below (`n`'s child on the rotated side); then `insertCase4Step2`. -/
def insertCase4 (fuel : ℕ) (n : Int) : M Unit := do
  let p ← mGetParent n
  let gp ← mGetGrandParent n
  let s ← get
  let n2pTag ← liftE (do let ts ← getEdgeTags s.graph n p; pure ts.1)
  let p2gpTag ← liftE (do let ts ← getEdgeTags s.graph p gp; pure ts.1)
  if n2pTag == tagRChild && p2gpTag == tagLChild then do
    rotateLeft fuel p
    let n' ← mGetLChild n
    insertCase4Step2 fuel n'
  else if n2pTag == tagLChild && p2gpTag == tagRChild then do
    rotateRight fuel p
    let n' ← mGetRChild n
    insertCase4Step2 fuel n'
  else
    insertCase4Step2 fuel n

/-- `RBTree.insertCase3` with the recursive re-invocation of
`insertRepairTree` abstracted as the continuation `repair`: recolor parent
and uncle black, grandparent red, then repair the grandparent. -/
def insertCase3Aux (repair : Int → M Unit) (n : Int) : M Unit := do
  let p ← mGetParent n
  let u ← mGetUncle n
  let gp ← mGetGrandParent n
  setColor p colorBlack
  setColor u colorBlack
  setColor gp colorRed
  repair gp

/-- `RBTree.insertRepairTree(n)`: case 1 when the parent is the sentinel,
case 2 when the parent is black, case 3 when the uncle exists and is red
(recursing on the grandparent), case 4 otherwise (a `NilNodeError` from the
uncle lookup — the parent is the root — is tolerated; any other lookup
error aborts). -/
def insertRepairTree : ℕ → Int → M Unit
  | 0, _ => throw .fuelOut
  | fuel + 1, n => do
    let p ← mGetParent n
    let pNode ← mGetNode p
    let parentData := pNode.extra
    let parentIsNil ← nodeIsNil p
    if parentIsNil then
      insertCase1 n
    else if parentData.color == colorBlack then
      insertCase2 n
    else
      fun s =>
        match mGetUncle n s with
        | .ok u s' =>
          (do
            let uNode ← mGetNode u
            if uNode.extra.color == colorRed then
              insertCase3Aux (insertRepairTree fuel) n
            else
              insertCase4 fuel n) s'
        | .error .nilNodeErr s' => insertCase4 fuel n s'
        | .error e s' => .error e s'

/-- `RBTree.insertCase3` proper: `insertCase3Aux` with the real repair. -/
def insertCase3 (fuel : ℕ) (n : Int) : M Unit :=
  insertCase3Aux (insertRepairTree fuel) n

/-- The upward walk at the end of `Insert`: climb parents from `n` until
the parent is the sentinel; that node becomes the recorded root. -/
def insertClimb : ℕ → Int → M Int
  | 0, _ => throw .fuelOut
  | fuel + 1, root => do
    let rootParent ← mGetParent root
    let isNil ← nodeIsNil rootParent
    if isNil then
      pure root
    else
      insertClimb fuel rootParent

/-- `RBTree.Insert(root, n)`: BST insert, repair, then record the
sentinel-bounded top as the tree's root (a rotation may have moved it). -/
def insertT (fuel : ℕ) (root? : Option Int) (n : Int) : M Unit := do
  insertRecurse fuel root? n
  insertRepairTree fuel n
  let newRoot ← insertClimb fuel n
  modify (fun s => { s with root := some newRoot })

/-! ### Deletion -/

/-- The walk of `getPredecessor`: keep taking right children until the next
one is a sentinel. -/
def predecessorWalk : ℕ → Int → M Int
  | 0, _ => throw .fuelOut
  | fuel + 1, pred => do
    let next ← mGetRChild pred
    let foundPredecessor ← nodeIsNil next
    if !foundPredecessor then
      predecessorWalk fuel next
    else
      pure pred

/-- `RBTree.getPredecessor(n)`: the maximum element of the left subtree; a
sentinel left child is a `NilNodeError`. -/
def getPredecessor (fuel : ℕ) (n : Int) : M Int := do
  let predecessor ← mGetLChild n
  let foundPredecessor ← nodeIsNil predecessor
  if foundPredecessor then
    throw .nilNodeErr
  else
    predecessorWalk fuel predecessor

/-- The walk of `getSuccessor`: keep taking left children until the next
one is a sentinel. -/
def successorWalk : ℕ → Int → M Int
  | 0, _ => throw .fuelOut
  | fuel + 1, succ => do
    let next ← mGetLChild succ
    let foundSuccessor ← nodeIsNil next
    if !foundSuccessor then
      successorWalk fuel next
    else
      pure succ

/-- `RBTree.getSuccessor(n)`: the minimum element of the right subtree; a
sentinel right child is a `NilNodeError`. -/
def getSuccessor (fuel : ℕ) (n : Int) : M Int := do
  let successor ← mGetRChild n
  let foundSuccessor ← nodeIsNil successor
  if foundSuccessor then
    throw .nilNodeErr
  else
    successorWalk fuel successor

/-- A relative lookup where the source branches on `errors.As(err,
&*NoEdgeError)`: returns `none` for a missing edge, propagates other
errors.  (`noX := errors.As(...)`; a non-`NoEdgeError` error aborts.) -/
def findRelative (n : Int) (tag : String) : M (Option Int) := fun s =>
  match getRelative s.graph n tag with
  | .ok r => .ok (some r) s
  | .error .noEdge => .ok none s
  | .error e => .error e s

/-- `RBTree.switchNodes(n1, n2)`: swap the two nodes' payload/coordinate
data in place (the second write reads `n1`'s coordinates after the first
write already overwrote them — the source's behavior, kept verbatim);
record both nodes' parents, side tags and (optional) children; remove all
old edges; patch the family variables when one node is the other's parent
(the second patch writes `p2`, as the source does); and relink everything,
the `p2 → n1` attach error being discarded by the source. -/
def switchNodes (fuel : ℕ) (n1 n2 : Int) : M Unit := do
  let n1Node ← mGetNode n1
  let n1DataCopy := n1Node.extra
  let n2Node ← mGetNode n2
  let n2Data := n2Node.extra
  modify (fun s => { s with graph := setNode s.graph n1 n2Node.x n2Node.y n2Node.z n2Data })
  let n1Now ← mGetNode n1
  modify (fun s => { s with graph := setNode s.graph n2 n1Now.x n1Now.y n1Now.z n1DataCopy })
  -- Immediate family of n1
  let p1 ← mGetParent n1
  let s ← get
  let n12p1Tag ← liftE (do let ts ← getEdgeTags s.graph n1 p1; pure ts.1)
  let lc1? ← findRelative n1 tagLChild
  let rc1? ← findRelative n1 tagRChild
  -- Immediate family of n2
  let p2 ← mGetParent n2
  let s ← get
  let n22p2Tag ← liftE (do let ts ← getEdgeTags s.graph n2 p2; pure ts.1)
  let lc2? ← findRelative n2 tagLChild
  let rc2? ← findRelative n2 tagRChild
  -- Remove old edges first
  mRemoveEdge n1 p1 true
  mRemoveEdge n2 p2 true
  match lc1? with
  | some lc1 => mRemoveEdge n1 lc1 true
  | none => pure ()
  match rc1? with
  | some rc1 => mRemoveEdge n1 rc1 true
  | none => pure ()
  match lc2? with
  | some lc2 => mRemoveEdge n2 lc2 true
  | none => pure ()
  match rc2? with
  | some rc2 => mRemoveEdge n2 rc2 true
  | none => pure ()
  -- Patch the family when n1 is n2's parent or n2 is n1's parent
  let patched :=
    if n1 == p2 then
      if n22p2Tag == tagLChild then (n2, (some n1 : Option Int), rc1?, lc2?, rc2?)
      else (n2, lc1?, some n1, lc2?, rc2?)
    else (p2, lc1?, rc1?, lc2?, rc2?)
  let patched2 :=
    if n2 == p1 then
      if n12p1Tag == tagLChild then (n1, patched.2.1, patched.2.2.1, (some n2 : Option Int), patched.2.2.2.2)
      else (n1, patched.2.1, patched.2.2.1, patched.2.2.2.1, some n2)
    else patched
  let p2' := patched2.1
  let lc1? := patched2.2.1
  let rc1? := patched2.2.2.1
  let lc2? := patched2.2.2.2.1
  let rc2? := patched2.2.2.2.2
  -- Relink
  if n12p1Tag == tagLChild then
    setLChild fuel p1 n2 true false true
  else
    setRChild fuel p1 n2 true false true
  if n22p2Tag == tagLChild then
    ignoreErr (setLChild fuel p2' n1 true false true)
  else
    ignoreErr (setRChild fuel p2' n1 true false true)
  match lc1? with
  | some lc1 => setLChild fuel n2 lc1 true false true
  | none => pure ()
  match rc1? with
  | some rc1 => setRChild fuel n2 rc1 true false true
  | none => pure ()
  match lc2? with
  | some lc2 => setLChild fuel n1 lc2 true false true
  | none => pure ()
  match rc2? with
  | some rc2 => setRChild fuel n1 rc2 true false true
  | none => pure ()

/-- `RBTree.replaceNode(n, child)`: attach `child` in `n`'s slot under
`n`'s parent (same side tag), remove the `p–n` and `n–child` edge pairs,
and move the recorded root to `child` if `n` was the root. -/
def replaceNode (fuel : ℕ) (n child : Int) : M Unit := do
  let p ← mGetParent n
  let s ← get
  let n2pTag ← liftE (do let ts ← getEdgeTags s.graph n p; pure ts.1)
  if n2pTag == tagLChild then
    setLChild fuel p child true false true
  else
    setRChild fuel p child true false true
  mRemoveEdge p n true
  mRemoveEdge n child true
  let s ← get
  match s.root with
  | none => throw .nilDeref
  | some r =>
    if n == r then
      modify (fun s => { s with root := some child })
    else
      pure ()

/-- `RBTree.deleteCase6(n)`: terminal case — recolor the sibling with the
parent's color, blacken the parent and the sibling's outer child, and
rotate at the parent toward `n`'s side. -/
def deleteCase6 (fuel : ℕ) (n : Int) : M Unit := do
  let s ← mGetSibling n
  let p ← mGetParent n
  let pNode ← mGetNode p
  let pData := pNode.extra
  let st ← get
  let n2pTag ← liftE (do let ts ← getEdgeTags st.graph n p; pure ts.1)
  setColor s pData.color
  setColor p colorBlack
  if n2pTag == tagLChild then do
    let sRc ← mGetRChild s
    let _ ← mGetNode sRc
    setColor sRc colorBlack
    rotateLeft fuel p
  else do
    let sLc ← mGetLChild s
    let _ ← mGetNode sLc
    setColor sLc colorBlack
    rotateRight fuel p

/-- `RBTree.deleteCase5(n)`: with a black sibling whose inner child is red
and outer child black, rotate at the sibling toward the outer side after
recoloring (the rotation's error is discarded by the source); then case 6. -/
def deleteCase5 (fuel : ℕ) (n : Int) : M Unit := do
  let s ← mGetSibling n
  let sNode ← mGetNode s
  let sData := sNode.extra
  let p ← mGetParent n
  let st ← get
  let n2pTag ← liftE (do let ts ← getEdgeTags st.graph n p; pure ts.1)
  let sRc ← mGetRChild s
  let sRcNode ← mGetNode sRc
  let sRcData := sRcNode.extra
  let sLc ← mGetLChild s
  let sLcNode ← mGetNode sLc
  let sLcData := sLcNode.extra
  if sData.color == colorBlack then do
    if n2pTag == tagLChild && sRcData.color == colorBlack && sLcData.color == colorRed then do
      setColor s colorRed
      setColor sLc colorBlack
      ignoreErr (rotateRight fuel s)
    else if n2pTag == tagRChild && sRcData.color == colorRed && sLcData.color == colorBlack then do
      setColor s colorRed
      setColor sRc colorBlack
      ignoreErr (rotateLeft fuel s)
    else
      pure ()
  deleteCase6 fuel n

/-- `RBTree.deleteCase4(n)`: red parent with black sibling and two black
sibling children — swap the colors of sibling and parent; otherwise case 5. -/
def deleteCase4 (fuel : ℕ) (n : Int) : M Unit := do
  let s ← mGetSibling n
  let sNode ← mGetNode s
  let sData := sNode.extra
  let p ← mGetParent n
  let pNode ← mGetNode p
  let pData := pNode.extra
  let sRc ← mGetRChild s
  let sRcNode ← mGetNode sRc
  let sRcData := sRcNode.extra
  let sLc ← mGetLChild s
  let sLcNode ← mGetNode sLc
  let sLcData := sLcNode.extra
  if pData.color == colorRed && sData.color == colorBlack &&
      sLcData.color == colorBlack && sRcData.color == colorBlack then do
    setColor s colorRed
    setColor p colorBlack
  else
    deleteCase5 fuel n

/-- `RBTree.deleteCase3(n)` with the `deleteCase1` back-edge abstracted as
the continuation `case1`: all of parent, sibling and both sibling children
black — recolor the sibling red and recurse on the parent; otherwise case 4. -/
def deleteCase3Aux (case1 : Int → M Unit) (fuel : ℕ) (n : Int) : M Unit := do
  let s ← mGetSibling n
  let sNode ← mGetNode s
  let sData := sNode.extra
  let p ← mGetParent n
  let pNode ← mGetNode p
  let pData := pNode.extra
  let sRc ← mGetRChild s
  let sRcNode ← mGetNode sRc
  let sRcData := sRcNode.extra
  let sLc ← mGetLChild s
  let sLcNode ← mGetNode sLc
  let sLcData := sLcNode.extra
  if pData.color == colorBlack && sData.color == colorBlack &&
      sLcData.color == colorBlack && sRcData.color == colorBlack then do
    setColor s colorRed
    case1 p
  else
    deleteCase4 fuel n

/-- `RBTree.deleteCase2(n)` with the same abstraction: a red sibling is
recolored black, the parent red, and the parent rotated toward `n`'s side;
then case 3. -/
def deleteCase2Aux (case1 : Int → M Unit) (fuel : ℕ) (n : Int) : M Unit := do
  let s ← mGetSibling n
  let p ← mGetParent n
  let sNode ← mGetNode s
  let sData := sNode.extra
  if sData.color == colorRed then do
    setColor p colorRed
    setColor s colorBlack
    let st ← get
    let n2pTag ← liftE (do let ts ← getEdgeTags st.graph n p; pure ts.1)
    if n2pTag == tagLChild then
      rotateLeft fuel p
    else
      rotateRight fuel p
  deleteCase3Aux case1 fuel n

/-- `RBTree.deleteCase1(n)`: nothing at the root, case 2 below it; the
case3→case1 cycle consumes fuel. -/
def deleteCase1 : ℕ → Int → M Unit
  | 0, _ => throw .fuelOut
  | fuel + 1, n => do
    let s ← get
    if s.root == some n then
      pure ()
    else
      deleteCase2Aux (deleteCase1 fuel) fuel n

/-- `RBTree.deleteCase2` proper. -/
def deleteCase2 (fuel : ℕ) (n : Int) : M Unit :=
  deleteCase2Aux (deleteCase1 fuel) fuel n

/-- `RBTree.deleteCase3` proper. -/
def deleteCase3 (fuel : ℕ) (n : Int) : M Unit :=
  deleteCase3Aux (deleteCase1 fuel) fuel n

/-- `RBTree.deleteOneChild(n)` (precondition: at most one non-sentinel
child).  Pick the non-sentinel child as replacement if there is one (a leaf
falls back to its left sentinel), removing the *other* sentinel child from
the graph; relink the replacement into `n`'s slot; if `n` was black, a red
replacement is recolored black and a black replacement enters the
deleteCase chain; finally remove `n` itself from the graph. -/
def deleteOneChild (fuel : ℕ) (n : Int) : M Unit := do
  let rc ← mGetRChild n
  let rcIsNil ← nodeIsNil rc
  let s ← get
  match getRelative s.graph n tagLChild with
  | .error _ => throw .nilDeref
  | .ok lc => do
    let lcIsNil ← nodeIsNil lc
    let child ←
      if !rcIsNil && !lcIsNil then
        throw .nilNodeErr
      else if !rcIsNil then do
        if lcIsNil then
          modify (fun s => { s with graph := removeNode s.graph lc })
        pure rc
      else do
        modify (fun s => { s with graph := removeNode s.graph rc })
        pure lc
    replaceNode fuel n child
    let nNode ← mGetNode n
    let childNode ← mGetNode child
    if nNode.extra.color == colorBlack then
      if childNode.extra.color == colorRed then
        setColor child colorBlack
      else
        deleteCase1 fuel child
    modify (fun s => { s with graph := removeNode s.graph n })

/-- The replacement-selection block at the head of `RBTree.Delete(n)`: the
toggled predecessor/successor strategy, falling back to the other side when
the preferred one resolves to a sentinel (`NilNodeError`). -/
def chooseReplacement (fuel : ℕ) (n : Int) : M Int := do
  let st ← get
  if st.removePredecessor then
    fun s =>
      match getPredecessor fuel n s with
      | .ok r s' => .ok r s'
      | .error .nilNodeErr s' => getSuccessor fuel n s'
      | .error e s' => .error e s'
  else
    fun s =>
      match getSuccessor fuel n s with
      | .ok r s' => .ok r s'
      | .error .nilNodeErr s' => getPredecessor fuel n s'
      | .error e s' => .error e s'

/-- `RBTree.Delete(n)`: choose the in-order predecessor or successor as
replacement; swap `n` with it; record the replacement as the tree's root
(unconditionally); delete `n` at its new position; flip the toggle. -/
def deleteT (fuel : ℕ) (n : Int) : M Unit := do
  let replacementNode ← chooseReplacement fuel n
  switchNodes fuel n replacementNode
  modify (fun s => { s with root := some replacementNode })
  deleteOneChild fuel n
  modify (fun s => { s with removePredecessor := !s.removePredecessor })

/-! ## Claim-harness definitions -/

/-- The two-node, edgeless graph used to instantiate the C2 theorem. -/
def c2WitnessGraph : Graph :=
  { numNodes := 2, numEdges := 0, maxEdgeWeight := 1,
    nodes := [
      { id := 1, x := 0, y := 0, z := 0,
        extra := { color := colorBlack, ctype := dataNodeTag, height := 0 }, edges := [] },
      { id := 2, x := 1, y := 1, z := 0,
        extra := { color := colorBlack, ctype := dataNodeTag, height := 0 }, edges := [] }] }

/-- A sequence of `GetID` calls on one distributor: each request carries the
node-kind tag and the collision check passed by the caller; the issued
identities are collected in order.  `none` when some data draw exhausts the
modeled random stream. -/
def runGetIDs : RBIDDistributor → List (String × (Int → Bool)) → Option (List Int × RBIDDistributor)
  | d, [] => some ([], d)
  | d, (tag, inv) :: rest =>
    match getID d tag inv with
    | none => none
    | some (id, d') =>
      match runGetIDs d' rest with
      | none => none
      | some (ids, dEnd) => some (id :: ids, dEnd)

/-- The subsequence of issued identities that came from sentinel (non-data)
requests. -/
def sentIds (rs : List (String × (Int → Bool))) (ids : List Int) : List Int :=
  (rs.zip ids).filterMap (fun p => if p.1.1 == dataNodeTag then none else some p.2)

/-- Inversion: a `noEdge` result of `getEdge` means the near node was found
and its edge list has no edge to `n2`. -/
theorem getEdge_noEdge_inv {g : Graph} {n1 n2 : Int}
    (h : getEdge g n1 n2 = .error .noEdge) :
    ∃ node, getNodeByID g n1 = .ok node ∧
      node.edges.find? (fun e => e.farId == n2) = none := by
  unfold getEdge at h
  cases hg : getNodeByID g n1 with
  | error e =>
    exfalso
    rw [hg] at h
    simp only [Bind.bind, Except.bind] at h
    injection h with he
    subst he
    unfold getNodeByID at hg
    cases hf : g.nodes.find? (fun n => n.id == n1) with
    | some n => rw [hf] at hg; cases hg
    | none => rw [hf] at hg; injection hg with hg'; cases hg'
  | ok node =>
    rw [hg] at h
    simp only [Bind.bind, Except.bind] at h
    refine ⟨node, rfl, ?_⟩
    cases hf : node.edges.find? (fun e => e.farId == n2) with
    | none => rfl
    | some e => rw [hf] at h; cases h

/-- `removeEdgeHelper2` never returns an error. -/
theorem removeEdgeHelper2_ok (g : Graph) (n1 n2 : Int) :
    ∃ g', removeEdgeHelper2 g n1 n2 = .ok g' := by
  unfold removeEdgeHelper2
  split
  · exact ⟨g, rfl⟩
  · split
    · exact ⟨g, rfl⟩
    · exact ⟨_, rfl⟩

/-- `removeEdgeHelper2` on a missing edge is a no-op returning the graph
unchanged. -/
theorem removeEdgeHelper2_missing (g : Graph) (n1 n2 : Int)
    (h : getEdge g n1 n2 = .error .noEdge) :
    removeEdgeHelper2 g n1 n2 = .ok g := by
  obtain ⟨node, hg, hf⟩ := getEdge_noEdge_inv h
  unfold removeEdgeHelper2
  simp only [hg, hf]

/-- **C2.** `RemoveEdge(n1, n2, bidirectional)` on a non-existent edge
returns no error and leaves the graph unchanged (idempotent delete), and
with `bidirectional` the two directions are attempted independently: if the
`n1 → n2` edge is absent, the call still performs exactly the `n2 → n1`
removal (which itself never errors), so absence of one direction does not
prevent removal of the other. -/
theorem c2_removeEdge_idempotent_and_independent (g : Graph) (n1 n2 : Int)
    (h12 : getEdge g n1 n2 = .error .noEdge) :
    removeEdgeHelper g n1 n2 false = .ok g ∧
    removeEdgeHelper g n1 n2 true = removeEdgeHelper2 g n2 n1 ∧
    (∃ g', removeEdgeHelper g n1 n2 true = .ok g') ∧
    (getEdge g n2 n1 = .error .noEdge → removeEdgeHelper g n1 n2 true = .ok g) := by
  have h2 := removeEdgeHelper2_missing g n1 n2 h12
  refine ⟨?_, ?_, ?_, ?_⟩
  · unfold removeEdgeHelper
    rw [h2]
    rfl
  · unfold removeEdgeHelper
    rw [h2]
    rfl
  · obtain ⟨g', hg'⟩ := removeEdgeHelper2_ok g n2 n1
    refine ⟨g', ?_⟩
    unfold removeEdgeHelper
    rw [h2]
    simpa [Bind.bind, Except.bind] using hg'
  · intro h21
    unfold removeEdgeHelper
    rw [h2]
    simpa [Bind.bind, Except.bind] using removeEdgeHelper2_missing g n2 n1 h21

/-- Witness for C2 at a concrete graph with two nodes and no edges. -/
theorem c2_witness :
    removeEdgeHelper c2WitnessGraph 1 2 false = .ok c2WitnessGraph ∧
    removeEdgeHelper c2WitnessGraph 1 2 true = removeEdgeHelper2 c2WitnessGraph 2 1 ∧
    (∃ g', removeEdgeHelper c2WitnessGraph 1 2 true = .ok g') ∧
    (getEdge c2WitnessGraph 2 1 = .error .noEdge →
      removeEdgeHelper c2WitnessGraph 1 2 true = .ok c2WitnessGraph) :=
  c2_removeEdge_idempotent_and_independent c2WitnessGraph 1 2 (by rfl)

/-- A drawn data identity is non-negative and passed the collision check,
and the draw leaves the sentinel counter untouched. -/
theorem drawDataId_spec {invalid : Int → Bool} :
    ∀ {stream : List ℕ} {nilCount id : Int} {d' : RBIDDistributor},
      drawDataId invalid stream nilCount = some (id, d') →
      0 ≤ id ∧ invalid id = false ∧ d'.nilNodeCount = nilCount := by
  intro stream
  induction stream with
  | nil =>
    intro nilCount id d' h
    exact absurd h (by simp [drawDataId])
  | cons v rest ih =>
    intro nilCount id d' h
    simp only [drawDataId] at h
    by_cases hv : invalid ((v % 1000 : ℕ) : Int)
    · rw [if_pos hv] at h
      exact ih h
    · rw [if_neg hv] at h
      injection h with h'
      have h1 : ((v % 1000 : ℕ) : Int) = id := congrArg Prod.fst h'
      have h2 : ({ nilNodeCount := nilCount, randStream := rest } : RBIDDistributor) = d' :=
        congrArg Prod.snd h'
      refine ⟨?_, ?_, ?_⟩
      · rw [← h1]; exact Int.natCast_nonneg _
      · rw [← h1]; simpa using hv
      · rw [← h2]

/-- Invariant of a `GetID` call sequence: data draws are non-negative and
collision-checked; sentinel draws lie strictly between the final counter and
the starting counter (inclusive) and are pairwise strictly decreasing; the
counter never increases. -/
theorem runGetIDs_spec :
    ∀ (rs : List (String × (Int → Bool))) (d : RBIDDistributor) (ids : List Int)
      (dEnd : RBIDDistributor),
      runGetIDs d rs = some (ids, dEnd) →
      (∀ p ∈ rs.zip ids, (p.1.1 == dataNodeTag) = true → 0 ≤ p.2 ∧ p.1.2 p.2 = false) ∧
      (∀ x ∈ sentIds rs ids, dEnd.nilNodeCount < x ∧ x ≤ d.nilNodeCount) ∧
      dEnd.nilNodeCount ≤ d.nilNodeCount ∧
      List.Pairwise (fun a b => b < a) (sentIds rs ids) := by
  intro rs
  induction rs with
  | nil =>
    intro d ids dEnd h
    simp only [runGetIDs] at h
    injection h with h'
    obtain ⟨hids, hd⟩ := Prod.ext_iff.mp h'
    subst hids
    subst hd
    simp [sentIds]
  | cons r rest ih =>
    intro d ids dEnd h
    obtain ⟨tag, inv⟩ := r
    simp only [runGetIDs] at h
    cases hgid : getID d tag inv with
    | none => rw [hgid] at h; cases h
    | some v =>
      obtain ⟨id, d'⟩ := v
      rw [hgid] at h
      dsimp only at h
      cases hrun : runGetIDs d' rest with
      | none => rw [hrun] at h; cases h
      | some w =>
        obtain ⟨ids', dEnd'⟩ := w
        rw [hrun] at h
        dsimp only at h
        injection h with h'
        obtain ⟨hids, hd⟩ := Prod.ext_iff.mp h'
        simp only at hids hd
        subst hids
        subst hd
        obtain ⟨ihData, ihSent, ihMono, ihPair⟩ := ih d' ids' dEnd' hrun
        unfold getID at hgid
        by_cases htag : (tag == dataNodeTag) = true
        · -- data draw
          have htag' : tag = dataNodeTag := by simpa using htag
          rw [if_pos htag] at hgid
          obtain ⟨hpos, hinv, hcnt⟩ := drawDataId_spec hgid
          have hsent : sentIds ((tag, inv) :: rest) (id :: ids') = sentIds rest ids' := by
            simp [sentIds, htag']
          refine ⟨?_, ?_, ?_, ?_⟩
          · intro p hp _hdata
            rcases List.mem_cons.mp hp with hhead | htail
            · subst hhead; exact ⟨hpos, hinv⟩
            · exact ihData p htail _hdata
          · intro x hx
            rw [hsent] at hx
            obtain ⟨hlt, hle⟩ := ihSent x hx
            exact ⟨hlt, by omega⟩
          · omega
          · rw [hsent]; exact ihPair
        · -- sentinel draw
          have htag' : tag ≠ dataNodeTag := by simpa using htag
          rw [if_neg htag] at hgid
          injection hgid with hgid'
          obtain ⟨hid, hd'⟩ := Prod.ext_iff.mp hgid'
          simp only at hid hd'
          have hcnt : d'.nilNodeCount = d.nilNodeCount - 1 := by rw [← hd']
          have hsent : sentIds ((tag, inv) :: rest) (id :: ids') = id :: sentIds rest ids' := by
            simp [sentIds, htag']
          refine ⟨?_, ?_, ?_, ?_⟩
          · intro p hp hdata
            rcases List.mem_cons.mp hp with hhead | htail
            · subst hhead; exact absurd hdata htag
            · exact ihData p htail hdata
          · intro x hx
            rw [hsent] at hx
            rcases List.mem_cons.mp hx with hhead | htail
            · subst hhead
              omega
            · obtain ⟨hlt, hle⟩ := ihSent x htail
              exact ⟨hlt, by omega⟩
          · omega
          · rw [hsent]
            refine List.Pairwise.cons ?_ ihPair
            intro x hx
            obtain ⟨_hlt, hle⟩ := ihSent x hx
            omega

/-- **C8.** For every sequence of `GetID` calls on a fresh identifier
distributor: every sentinel identity issued is negative and strictly
smaller than all previously issued sentinel identities (so sentinel
identities never repeat), every data identity issued is non-negative and
passed the supplied collision check, and hence the data and sentinel
namespaces are disjoint by sign. -/
theorem c8_getID_sentinel_monotone_data_disjoint
    (stream : List ℕ) (rs : List (String × (Int → Bool))) (ids : List Int)
    (dEnd : RBIDDistributor)
    (h : runGetIDs (newRBIDDistributor stream) rs = some (ids, dEnd)) :
    (∀ x ∈ sentIds rs ids, x < 0) ∧
    List.Pairwise (fun a b => b < a) (sentIds rs ids) ∧
    (∀ p ∈ rs.zip ids, (p.1.1 == dataNodeTag) = true → 0 ≤ p.2 ∧ p.1.2 p.2 = false) ∧
    (∀ x ∈ sentIds rs ids, ∀ p ∈ rs.zip ids, (p.1.1 == dataNodeTag) = true → x ≠ p.2) := by
  obtain ⟨hData, hSent, _hMono, hPair⟩ :=
    runGetIDs_spec rs (newRBIDDistributor stream) ids dEnd h
  have hneg : ∀ x ∈ sentIds rs ids, x < 0 := by
    intro x hx
    have := (hSent x hx).2
    simp only [newRBIDDistributor] at this
    omega
  refine ⟨hneg, hPair, hData, ?_⟩
  intro x hx p hp hdata
  have h1 := hneg x hx
  have h2 := (hData p hp hdata).1
  omega

/-- Witness for C8: a sentinel draw, a data draw and another sentinel draw
on a fresh distributor with random stream `[7]`. -/
theorem c8_witness :
    (∀ x ∈ sentIds
        [(nilNodeTag, fun _ => false), (dataNodeTag, fun _ => false),
         (nilNodeTag, fun _ => false)] [-1, 7, -2], x < 0) ∧
    List.Pairwise (fun a b => b < a)
      (sentIds
        [(nilNodeTag, fun _ => false), (dataNodeTag, fun _ => false),
         (nilNodeTag, fun _ => false)] [-1, 7, -2]) ∧
    (∀ p ∈ ([(nilNodeTag, fun _ => false), (dataNodeTag, fun _ => false),
         (nilNodeTag, fun _ => false)] : List (String × (Int → Bool))).zip
        ([-1, 7, -2] : List Int),
      (p.1.1 == dataNodeTag) = true → 0 ≤ p.2 ∧ p.1.2 p.2 = false) ∧
    (∀ x ∈ sentIds
        [(nilNodeTag, fun _ => false), (dataNodeTag, fun _ => false),
         (nilNodeTag, fun _ => false)] [-1, 7, -2],
      ∀ p ∈ ([(nilNodeTag, fun _ => false), (dataNodeTag, fun _ => false),
         (nilNodeTag, fun _ => false)] : List (String × (Int → Bool))).zip
        ([-1, 7, -2] : List Int),
      (p.1.1 == dataNodeTag) = true → x ≠ p.2) :=
  c8_getID_sentinel_monotone_data_disjoint [7]
    [(nilNodeTag, fun _ => false), (dataNodeTag, fun _ => false),
     (nilNodeTag, fun _ => false)] [-1, 7, -2] { nilNodeCount := -3, randStream := [] }
    (by rfl)

/-! ### Map and lookup lemmas -/

theorem run_bind {α β : Type} (x : M α) (k : α → M β) (s : RBT) :
    (x >>= k) s = match x s with
      | .ok a s' => k a s'
      | .error e s' => .error e s' := by
  show EStateM.bind x k s = _
  unfold EStateM.bind
  cases x s <;> rfl

theorem run_pure {α : Type} (a : α) (s : RBT) : (pure a : M α) s = .ok a s := rfl

theorem run_throw {α : Type} (e : GErr) (s : RBT) : (throw e : M α) s = .error e s := rfl

/-- `find?` by identity commutes with an identity-preserving in-place map. -/
theorem find?_map_preserve (i t : Int) (f : GNode → GNode) (hf : ∀ nd, (f nd).id = nd.id) :
    ∀ l : List GNode,
      (l.map (fun nd => if nd.id == i then f nd else nd)).find? (fun nd => nd.id == t) =
      (l.find? (fun nd => nd.id == t)).map (fun nd => if nd.id == i then f nd else nd) := by
  intro l
  induction l with
  | nil => rfl
  | cons hd rest ih =>
    have hfid : (if hd.id == i then f hd else hd).id = hd.id := by
      by_cases hid : (hd.id == i) = true
      · rw [if_pos hid]; exact hf hd
      · rw [if_neg hid]
    simp only [List.map_cons, List.find?, hfid]
    cases ht : (hd.id == t) with
    | true => simp [ht]
    | false => simp only [ht]; exact ih

/-- A successful identity lookup implies the membership flag. -/
theorem hasNodeWithID_of_get {g : Graph} {n : Int} {node : GNode}
    (h : getNodeByID g n = .ok node) : hasNodeWithID g n = true := by
  unfold getNodeByID at h
  cases hf : g.nodes.find? (fun nd => nd.id == n) with
  | none => rw [hf] at h; cases h
  | some a =>
    rw [hf] at h
    injection h with h'
    unfold hasNodeWithID
    refine List.any_eq_true.mpr ⟨a, List.mem_of_find?_eq_some hf, ?_⟩
    simpa using List.find?_some hf

/-- `SetNode` on a present identity: lookups of other identities are
unchanged. -/
theorem getNodeByID_setNode_other {g : Graph} {n : Int} {node : GNode}
    (h : getNodeByID g n = .ok node) (x y z : ℚ) (e : ColorData) (t : Int) (ht : t ≠ n) :
    getNodeByID (setNode g n x y z e) t = getNodeByID g t := by
  have hhas := hasNodeWithID_of_get h
  unfold setNode
  rw [if_pos hhas]
  unfold getNodeByID
  rw [find?_map_preserve n t (fun nd => overwriteNode nd x y z e) (fun _ => rfl)]
  cases hf : g.nodes.find? (fun nd => nd.id == t) with
  | none => rfl
  | some a =>
    have hat : a.id = t := by simpa using List.find?_some hf
    simp only [Option.map_some']
    rw [if_neg (show ¬((a.id == n) = true) by simp [hat, ht])]

/-- **C7.** On a node whose parent is a red (non-sentinel) node and whose
uncle lookup succeeds at a red node, the insertion repair takes case 3: it
recolors the parent and the uncle black and the grandparent red, and then
re-invokes the repair procedure on the grandparent. -/
theorem c7_insertRepair_red_uncle_case3
    (fuel : ℕ) (n p u gp : Int) (pNode uNode : GNode) (s : RBT)
    (hp : mGetParent n s = .ok p s)
    (hpn : getNodeByID s.graph p = .ok pNode)
    (hpnotnil : (pNode.extra.ctype == nilNodeTag) = false)
    (hpred : pNode.extra.color = colorRed)
    (hu : mGetUncle n s = .ok u s)
    (hun : getNodeByID s.graph u = .ok uNode)
    (hured : uNode.extra.color = colorRed)
    (hgp : mGetGrandParent n s = .ok gp s) :
    insertRepairTree (fuel + 1) n s =
      (do
        setColor p colorBlack
        setColor u colorBlack
        setColor gp colorRed
        insertRepairTree fuel gp) s := by
  have hmn : mGetNode p s = .ok pNode s := by
    unfold mGetNode
    rw [hpn]
  have hmu : mGetNode u s = .ok uNode s := by
    unfold mGetNode
    rw [hun]
  have hpblack : (pNode.extra.color == colorBlack) = false := by
    rw [hpred]
    decide
  have hucol : (uNode.extra.color == colorRed) = true := by
    rw [hured]
    decide
  simp only [insertRepairTree, insertCase3Aux, nodeIsNil, run_bind, run_pure, hp, hmn, hmu,
    hu, hgp, hpnotnil, hpblack, hucol, Bool.false_eq_true, if_false, if_true]

/-- A five-node shape exercising insert case 3: grandparent 1 (black, the
root) with left child 2 (red) and right child 3 (red, the uncle); node 4
(red) is the left child of 2. -/
def c7WitnessTree : RBT :=
  { root := some 1
    graph :=
      { numNodes := 4, numEdges := 6, maxEdgeWeight := 0
        nodes :=
          [{ id := 1, x := 0, y := 0, z := 0
             extra := { color := colorBlack, ctype := dataNodeTag, height := 0 }
             edges := [{ weight := 0, nearId := 1, nearTag := tagParent, farId := 2, farTag := tagLChild },
                       { weight := 0, nearId := 1, nearTag := tagParent, farId := 3, farTag := tagRChild }] },
           { id := 2, x := 0, y := 0, z := 0
             extra := { color := colorRed, ctype := dataNodeTag, height := 1 }
             edges := [{ weight := 0, nearId := 2, nearTag := tagLChild, farId := 1, farTag := tagParent },
                       { weight := 0, nearId := 2, nearTag := tagParent, farId := 4, farTag := tagLChild }] },
           { id := 3, x := 0, y := 0, z := 0
             extra := { color := colorRed, ctype := dataNodeTag, height := 1 }
             edges := [{ weight := 0, nearId := 3, nearTag := tagRChild, farId := 1, farTag := tagParent }] },
           { id := 4, x := 0, y := 0, z := 0
             extra := { color := colorRed, ctype := dataNodeTag, height := 2 }
             edges := [{ weight := 0, nearId := 4, nearTag := tagLChild, farId := 2, farTag := tagParent }] }] }
    ttype := "rb"
    idDistributor := { nilNodeCount := -1, randStream := [] }
    height := 2
    nodeHeights := [(0, 1), (1, 2), (2, 1)]
    removePredecessor := true
    layerDxRatio := 1
    layerDy := 1 }

theorem c7_witness :
    insertRepairTree (0 + 1) 4 c7WitnessTree =
      (do
        setColor 2 colorBlack
        setColor 3 colorBlack
        setColor 1 colorRed
        insertRepairTree 0 1) c7WitnessTree :=
  c7_insertRepair_red_uncle_case3 0 4 2 3 1
    { id := 2, x := 0, y := 0, z := 0
      extra := { color := colorRed, ctype := dataNodeTag, height := 1 }
      edges := [{ weight := 0, nearId := 2, nearTag := tagLChild, farId := 1, farTag := tagParent },
                { weight := 0, nearId := 2, nearTag := tagParent, farId := 4, farTag := tagLChild }] }
    { id := 3, x := 0, y := 0, z := 0
      extra := { color := colorRed, ctype := dataNodeTag, height := 1 }
      edges := [{ weight := 0, nearId := 3, nearTag := tagRChild, farId := 1, farTag := tagParent }] }
    c7WitnessTree rfl rfl rfl rfl rfl rfl rfl rfl


end GraphTools
